import Mathlib

/-!
# Verification of `export_dropbox_paper.py`

A shallow embedding of the batch exporter in `src/export_dropbox_paper.py`.

Modelling conventions:

* A filesystem path is its list of components (`List String`), already
  absolute and resolved: the script calls `Path.expanduser` / `Path.resolve`
  up front, so we take the post-resolution components as the path value and
  `resolve` is the identity (symlinks are out of scope of the model).
* The filesystem visible to discovery is the list of file paths it holds
  (`List (List String)`); directories are implicit.
* The Dropbox client is an oracle `String → String → RemoteOutcome` giving,
  for a remote path and an export format, what `client.files_export` does:
  raise `AuthError`, raise `ApiError`, or return metadata and bytes.
* Side effects of a run are collected as a trace of `Event`s (directory
  creation, file writes, console prints), in program order.
* Python's UTF-8 decoding (`bytes.decode`) is modelled by an explicit
  decoder over byte lists, with strict and `errors="replace"` variants.
-/

/-- Join path components with `"/"` (posix separator), as `PurePath.as_posix`
does for a nonempty relative path. -/
def joinSlash : List String → String
  | [] => ""
  | [p] => p
  | p :: rest => p ++ "/" ++ joinSlash rest

/-- `PurePath.as_posix` on a relative path given by its components: an empty
component list is the path `.`. -/
def asPosix (parts : List String) : String :=
  if parts = [] then "." else joinSlash parts

/-- `str(path)` for an absolute path given by its components. -/
def showPath (parts : List String) : String :=
  "/" ++ joinSlash parts

/-- `Path.relative_to`: succeeds with the component suffix when `root` is a
componentwise prefix, raises `ValueError` (here `none`) otherwise. -/
def pyRelativeTo (p root : List String) : Option (List String) :=
  if root.isPrefixOf p then some (p.drop root.length) else none

/-- `compute_remote_path` (src lines 22–30): the remote Dropbox path of
`local_file` relative to `dropbox_root`, or the `RuntimeError` message when
`local_file` is not inside the root.  The spec's `PathError` is this
`Except.error` case. -/
def compute_remote_path (local_file dropbox_root : List String) :
    Except String String :=
  match pyRelativeTo local_file dropbox_root with
  | none =>
      .error (showPath local_file ++ " is not inside the Dropbox root " ++
        showPath dropbox_root)
  | some rel => .ok ("/" ++ asPosix rel)

/-- `remote_path.rsplit("/", 1)[-1]`: the part of the string after its last
`'/'` (the whole string if it has none). -/
def lastSegment (s : String) : String :=
  ⟨(s.data.reverse.takeWhile (fun c => c ≠ '/')).reverse⟩

/-- Splitting a character list at every `'/'`. -/
def charSplit : List Char → List (List Char)
  | [] => [[]]
  | c :: cs =>
    if c = '/' then [] :: charSplit cs
    else
      match charSplit cs with
      | [] => [[c]]
      | r :: rs => (c :: r) :: rs

/-- Split a string into its `'/'`-separated segments. -/
def splitSlash (s : String) : List String :=
  (charSplit s.data).map (fun cs => ⟨cs⟩)

/-- Strip one leading `'/'` from a string, if present. -/
def stripLead (s : String) : String :=
  match s.data with
  | '/' :: cs => ⟨cs⟩
  | cs => ⟨cs⟩

/-- Python's `<` on strings: strict lexicographic comparison of the code
point sequences. -/
def charListLt : List Char → List Char → Bool
  | [], [] => false
  | [], _ :: _ => true
  | _ :: _, [] => false
  | a :: as, b :: bs =>
    if a.toNat < b.toNat then true
    else if b.toNat < a.toNat then false
    else charListLt as bs

/-- Python's `<` on strings, on the `String` type. -/
def strLt (a b : String) : Bool := charListLt a.data b.data

/-- Lexicographic comparison of component lists with Python's string order on
each component: this is how Python compares `Path` values (by their parts
tuples), so it is the order `sorted` uses in `iter_paper_files`. -/
def pathLe : List String → List String → Bool
  | [], _ => true
  | _ :: _, [] => false
  | a :: as, b :: bs => if strLt a b then true else if a = b then pathLe as bs else false

/-- `Path.with_suffix` support: the stem of a file name, following Python's
rule — the name up to its last `'.'`, provided that dot is neither the first
nor the last character; otherwise the name has no suffix and is its own
stem. -/
def pyStem (name : String) : String :=
  let cs := name.data
  let k := (cs.reverse.takeWhile (fun c => c ≠ '.')).length
  if k = cs.length ∨ k = 0 ∨ k + 1 = cs.length then name
  else ⟨cs.take (cs.length - k - 1)⟩

/-- `Path.with_suffix` on the final component of a path. -/
def withSuffixName (name suffix : String) : String :=
  pyStem name ++ suffix

/-- `path.with_suffix(suffix)` on a path given by its components.  Callers
only apply it to nonempty paths (`with_suffix` on an empty path raises). -/
def pyWithSuffix (parts : List String) (suffix : String) : List String :=
  parts.dropLast ++ [withSuffixName (parts.getLastD "") suffix]

/-- Python's `or` on strings (the empty string is falsy), as used in
`args.dropbox_token or os.environ.get("DROPBOX_ACCESS_TOKEN")` with absent
values read as `""`. -/
def pyOr (a b : String) : String :=
  if a = "" then b else a

/-- `".md" if args.format == "markdown" else ".html"` (src line 111). -/
def extensionFor (fmt : String) : String :=
  if fmt = "markdown" then ".md" else ".html"

/-- fnmatch against the literal pattern `*.paper`: the name ends with
`".paper"`. -/
def endsWithPaper (name : String) : Bool :=
  ".paper".data.isSuffixOf name.data

/-- Whether `rglob("*.paper")` rooted at `root` yields the file `p`: `p`
lies strictly below `root` and its final component matches `*.paper`. -/
def matchesPaper (root p : List String) : Bool :=
  root.isPrefixOf p && decide (root.length < p.length) &&
    endsWithPaper (p.getLastD "")

/-- `iter_paper_files` (src lines 17–19): the `.paper` files beneath `root`,
sorted.  Python's `sorted` on `Path` values is a stable sort by the parts
tuples, i.e. by `pathLe`; `fs` is the set of files in the filesystem. -/
def iter_paper_files (root : List String) (fs : List (List String)) :
    List (List String) :=
  (fs.filter (matchesPaper root)).mergeSort pathLe

example : compute_remote_path ["home", "u", "Dropbox", "notes", "a.paper"]
    ["home", "u", "Dropbox"] = .ok "/notes/a.paper" := rfl

example : compute_remote_path ["tmp", "a.paper"] ["home", "u", "Dropbox"] =
    .error "/tmp/a.paper is not inside the Dropbox root /home/u/Dropbox" := rfl

example : splitSlash (stripLead "/notes/a.paper") = ["notes", "a.paper"] := by decide

example : pathLe ["a", "b"] ["a.c"] = true := by decide

example : pathLe ["a.c"] ["a", "b"] = false := by decide

example : pyWithSuffix ["notes", "a.paper"] ".md" = ["notes", "a.md"] := by decide

/-! ## The UTF-8 decoder of the Python runtime

`response.content.decode("utf-8")` and `.decode("utf-8", errors="replace")`
(src lines 46–49) are modelled by an explicit byte-list decoder.  The strict
variant reports whether any ill-formed sequence occurred; the replace
variant substitutes U+FFFD for each maximal ill-formed subpart, as CPython
does. -/

/-- The Unicode replacement character U+FFFD. -/
def replChar : Char := Char.ofNat 0xFFFD

/-- A UTF-8 continuation byte. -/
def isCont (b : Nat) : Bool := decide (0x80 ≤ b ∧ b ≤ 0xBF)

/-- Valid second byte of a three-byte sequence headed by `b0` (excludes
overlong encodings and surrogates). -/
def cont3ok (b0 b1 : Nat) : Bool :=
  if b0 = 0xE0 then decide (0xA0 ≤ b1 ∧ b1 ≤ 0xBF)
  else if b0 = 0xED then decide (0x80 ≤ b1 ∧ b1 ≤ 0x9F)
  else isCont b1

/-- Valid second byte of a four-byte sequence headed by `b0` (excludes
overlong encodings and code points above U+10FFFF). -/
def cont4ok (b0 b1 : Nat) : Bool :=
  if b0 = 0xF0 then decide (0x90 ≤ b1 ∧ b1 ≤ 0xBF)
  else if b0 = 0xF4 then decide (0x80 ≤ b1 ∧ b1 ≤ 0x8F)
  else isCont b1

/-- Decode one scalar from head byte `b0` and remaining bytes `rest`: the
decoded character (`none` for an ill-formed maximal subpart, which the
replace handler turns into U+FFFD), and the bytes not yet consumed (always
a suffix of `rest`). -/
def utf8Step (b0 : Nat) (rest : List Nat) : Option Char × List Nat :=
  if b0 < 0x80 then (some (Char.ofNat b0), rest)
  else if b0 < 0xC2 then (none, rest)
  else if b0 ≤ 0xDF then
    match rest with
    | [] => (none, [])
    | b1 :: rest1 =>
      if isCont b1 then
        (some (Char.ofNat ((b0 - 0xC0) * 64 + (b1 - 0x80))), rest1)
      else (none, b1 :: rest1)
  else if b0 ≤ 0xEF then
    match rest with
    | [] => (none, [])
    | b1 :: rest1 =>
      if cont3ok b0 b1 then
        match rest1 with
        | [] => (none, [])
        | b2 :: rest2 =>
          if isCont b2 then
            (some (Char.ofNat ((b0 - 0xE0) * 4096 + (b1 - 0x80) * 64 +
              (b2 - 0x80))), rest2)
          else (none, b2 :: rest2)
      else (none, b1 :: rest1)
  else if b0 ≤ 0xF4 then
    match rest with
    | [] => (none, [])
    | b1 :: rest1 =>
      if cont4ok b0 b1 then
        match rest1 with
        | [] => (none, [])
        | b2 :: rest2 =>
          if isCont b2 then
            match rest2 with
            | [] => (none, [])
            | b3 :: rest3 =>
              if isCont b3 then
                (some (Char.ofNat ((b0 - 0xF0) * 262144 + (b1 - 0x80) * 4096 +
                  (b2 - 0x80) * 64 + (b3 - 0x80))), rest3)
              else (none, b3 :: rest3)
          else (none, b2 :: rest2)
      else (none, b1 :: rest1)
  else (none, rest)

/-- Fueled decoding loop: the characters with ill-formed parts replaced by
U+FFFD, and whether everything was well-formed.  `utf8Step` always consumes
at least the head byte, so fuel `bs.length` suffices and the `0, _ :: _`
case is never reached from `utf8DecodeR`. -/
def utf8DecodeGo : Nat → List Nat → List Char × Bool
  | _, [] => ([], true)
  | 0, _ :: _ => ([], true)
  | fuel + 1, b :: rest =>
    let s := utf8Step b rest
    let r := utf8DecodeGo fuel s.2
    (s.1.getD replChar :: r.1, s.1.isSome && r.2)

/-- Decode a byte list: the character sequence produced with
`errors="replace"`, paired with whether the whole input was well-formed. -/
def utf8DecodeR (bs : List Nat) : List Char × Bool :=
  utf8DecodeGo bs.length bs

/-- `bytes.decode("utf-8", errors="replace")`. -/
def utf8DecodeReplace (bs : List Nat) : String :=
  ⟨(utf8DecodeR bs).1⟩

/-- `bytes.decode("utf-8")`: `none` models the `UnicodeDecodeError`. -/
def utf8DecodeStrict (bs : List Nat) : Option String :=
  if (utf8DecodeR bs).2 then some ⟨(utf8DecodeR bs).1⟩ else none

/-- The `try: decode strict / except UnicodeDecodeError: decode replace`
block of `export_paper` (src lines 46–49). -/
def pyDecodeUtf8 (bs : List Nat) : String :=
  match utf8DecodeStrict bs with
  | some t => t
  | none => utf8DecodeReplace bs

example : pyDecodeUtf8 [72, 105] = "Hi" := by decide

example : utf8DecodeStrict [0xFF] = none := by decide

example : pyDecodeUtf8 [0xC3, 0xA9] = "é" := by decide

example : pyDecodeUtf8 [0x41, 0xC2, 0x42] = "A" ++ ⟨[replChar]⟩ ++ "B" := by decide

/-! ## The remote client, results and effect traces -/

/-- What one call to `client.files_export(remote_path, export_format)`
does: raise `dropbox.exceptions.AuthError`, raise
`dropbox.exceptions.ApiError`, or return metadata (whose `name` attribute
may be absent) together with the response content bytes. -/
inductive RemoteOutcome where
  | authErr (msg : String)
  | apiErr (msg : String)
  | ok (name : Option String) (content : List Nat)

/-- A Dropbox client, as an oracle from remote path and format to the
outcome of the export call. -/
def Client := String → String → RemoteOutcome

/-- Outcome of `export_paper`: an uncaught `AuthError`, a raised
`RuntimeError`, or the returned string. -/
inductive ExportResult where
  | auth (msg : String)
  | err (msg : String)
  | ok (text : String)
deriving DecidableEq

/-- One observable side effect of the program: `Path.mkdir(parents=True,
exist_ok=True)`, `Path.write_text`, or a console `print`. -/
inductive Event where
  | mkdir (p : List String)
  | write (p : List String) (content : String)
  | print (msg : String)
deriving DecidableEq

/-- How the process ends: `return 0` (exit status 0) or
`raise SystemExit(msg)` (message printed, exit status 1). -/
inductive RunResult where
  | exitOk
  | exitErr (msg : String)
deriving DecidableEq

/-- `export_paper` (src lines 33–53). -/
def export_paper (client : Client) (remote_path export_format : String) :
    ExportResult :=
  match client remote_path export_format with
  | .authErr m => .auth m
  | .apiErr m => .err ("Dropbox export failed: " ++ m)
  | .ok nm content =>
    let text := pyDecodeUtf8 content
    let title := nm.getD (lastSegment remote_path)
    let suffix :=
      if export_format ≠ "" then " (exported as " ++ export_format ++ ")"
      else ""
    .ok ("# " ++ title ++ suffix ++ "\n\n" ++ text)

/-- The output path for a discovered file `p` (src lines 128–129):
`output_dir / paper_path.relative_to(paper_dir).with_suffix(extension)`.
Discovery guarantees `paper_dir` is a prefix of `p`, so the `getD []`
default is never taken. -/
def targetOf (output_dir paper_dir : List String) (extension : String)
    (p : List String) : List String :=
  output_dir ++ pyWithSuffix ((pyRelativeTo p paper_dir).getD []) extension

/-- The per-file loop of `main` (src lines 117–131), returning the final
result together with the trace of effects, in program order. -/
def mainLoop (client : Client) (fmt extension : String)
    (dropbox_root output_dir paper_dir : List String) :
    List (List String) → RunResult × List Event
  | [] => (.exitOk, [])
  | p :: rest =>
    let pr := Event.print ("Processing " ++ showPath p)
    match compute_remote_path p dropbox_root with
    | .error msg =>
      let r := mainLoop client fmt extension dropbox_root output_dir paper_dir rest
      (r.1, pr :: .print ("  Skipping: " ++ msg) :: r.2)
    | .ok remote_path =>
      match export_paper client remote_path fmt with
      | .auth m => (.exitErr ("Dropbox authentication failed: " ++ m), [pr])
      | .err m =>
        let r := mainLoop client fmt extension dropbox_root output_dir paper_dir rest
        (r.1, pr :: .print ("  Skipping: " ++ m) :: r.2)
      | .ok content =>
        let target := targetOf output_dir paper_dir extension p
        let r := mainLoop client fmt extension dropbox_root output_dir paper_dir rest
        (r.1, pr :: .mkdir target.dropLast :: .write target content :: r.2)

/-- `main` (src lines 92–133) after argument parsing, over already
expanded/resolved paths.  `paperIsDir` is what `paper_dir.is_dir()`
observes; `tokenFlag` and `envToken` are the `--dropbox-token` flag and the
`DROPBOX_ACCESS_TOKEN` environment variable; `fs` is the filesystem seen by
discovery; `client` the Dropbox client obtained from the token. -/
def mainRun (paperIsDir : Bool) (paper_dir output_dir dropbox_root : List String)
    (tokenFlag envToken : Option String) (fmt : String)
    (fs : List (List String)) (client : Client) : RunResult × List Event :=
  if ¬ paperIsDir then
    (.exitErr ("--paper-dir must point to a directory: " ++ showPath paper_dir), [])
  else
    let token := pyOr (tokenFlag.getD "") (envToken.getD "")
    if token = "" then
      (.exitErr "Dropbox access token missing. Provide --dropbox-token or set DROPBOX_ACCESS_TOKEN.", [])
    else
      let extension := extensionFor fmt
      let paper_files := iter_paper_files paper_dir fs
      if paper_files = [] then
        (.exitOk, [.mkdir output_dir,
          .print ("No .paper files found under " ++ showPath paper_dir)])
      else
        let r := mainLoop client fmt extension dropbox_root output_dir paper_dir paper_files
        (r.1, .mkdir output_dir :: r.2)

/-- The paths the program touches (creates or writes); prints touch
nothing. -/
def touchedPath : Event → Option (List String)
  | .mkdir p => some p
  | .write p _ => some p
  | .print _ => none

/-- Recognises the per-file progress message `print(f"Processing {path}")`. -/
def isProcessingMsg (m : String) : Bool :=
  "Processing ".data.isPrefixOf m.data

/-- The `Processing …` messages of a trace, in order: one per file the loop
attempted, in the order it attempted them. -/
def processedOf : List Event → List String
  | [] => []
  | .print m :: t => if isProcessingMsg m then m :: processedOf t else processedOf t
  | .mkdir _ :: t => processedOf t
  | .write _ _ :: t => processedOf t

/-! ## Helper lemmas -/

theorem mk_data_eq (s : String) : (⟨s.data⟩ : String) = s := rfl

theorem isProcessingMsg_processing (s : String) :
    isProcessingMsg ("Processing " ++ s) = true := by
  simp [isProcessingMsg, List.isPrefixOf_iff_prefix]

theorem isProcessingMsg_skipping (m : String) :
    isProcessingMsg ("  Skipping: " ++ m) = false := rfl

theorem processedOf_processing (s : String) (t : List Event) :
    processedOf (.print ("Processing " ++ s) :: t) =
      ("Processing " ++ s) :: processedOf t := by
  simp [processedOf, isProcessingMsg_processing]

theorem processedOf_skipping (m : String) (t : List Event) :
    processedOf (.print ("  Skipping: " ++ m) :: t) = processedOf t := by
  simp [processedOf, isProcessingMsg_skipping]

theorem compute_remote_path_of_prefix {root p : List String} (h : root <+: p) :
    compute_remote_path p root = .ok ("/" ++ asPosix (p.drop root.length)) := by
  simp [compute_remote_path, pyRelativeTo, List.isPrefixOf_iff_prefix, h]

theorem compute_remote_path_of_not_prefix {root p : List String}
    (h : ¬ root <+: p) :
    compute_remote_path p root =
      .error (showPath p ++ " is not inside the Dropbox root " ++ showPath root) := by
  simp [compute_remote_path, pyRelativeTo, List.isPrefixOf_iff_prefix, h]

theorem mainLoop_cons_patherr (client : Client) (fmt extension : String)
    (dropbox_root output_dir paper_dir p : List String) (rest : List (List String))
    (msg : String) (h : compute_remote_path p dropbox_root = .error msg) :
    mainLoop client fmt extension dropbox_root output_dir paper_dir (p :: rest) =
      ((mainLoop client fmt extension dropbox_root output_dir paper_dir rest).1,
        .print ("Processing " ++ showPath p) :: .print ("  Skipping: " ++ msg) ::
        (mainLoop client fmt extension dropbox_root output_dir paper_dir rest).2) := by
  simp [mainLoop, h]

theorem mainLoop_cons_apierr (client : Client) (fmt extension : String)
    (dropbox_root output_dir paper_dir p : List String) (rest : List (List String))
    (rp m : String) (h1 : compute_remote_path p dropbox_root = .ok rp)
    (h2 : export_paper client rp fmt = .err m) :
    mainLoop client fmt extension dropbox_root output_dir paper_dir (p :: rest) =
      ((mainLoop client fmt extension dropbox_root output_dir paper_dir rest).1,
        .print ("Processing " ++ showPath p) :: .print ("  Skipping: " ++ m) ::
        (mainLoop client fmt extension dropbox_root output_dir paper_dir rest).2) := by
  simp [mainLoop, h1, h2]

theorem mainLoop_cons_auth (client : Client) (fmt extension : String)
    (dropbox_root output_dir paper_dir p : List String) (rest : List (List String))
    (rp m : String) (h1 : compute_remote_path p dropbox_root = .ok rp)
    (h2 : export_paper client rp fmt = .auth m) :
    mainLoop client fmt extension dropbox_root output_dir paper_dir (p :: rest) =
      (.exitErr ("Dropbox authentication failed: " ++ m),
        [.print ("Processing " ++ showPath p)]) := by
  simp [mainLoop, h1, h2]

theorem mainLoop_cons_ok (client : Client) (fmt extension : String)
    (dropbox_root output_dir paper_dir p : List String) (rest : List (List String))
    (rp content : String) (h1 : compute_remote_path p dropbox_root = .ok rp)
    (h2 : export_paper client rp fmt = .ok content) :
    mainLoop client fmt extension dropbox_root output_dir paper_dir (p :: rest) =
      ((mainLoop client fmt extension dropbox_root output_dir paper_dir rest).1,
        .print ("Processing " ++ showPath p) ::
        .mkdir (targetOf output_dir paper_dir extension p).dropLast ::
        .write (targetOf output_dir paper_dir extension p) content ::
        (mainLoop client fmt extension dropbox_root output_dir paper_dir rest).2) := by
  simp [mainLoop, h1, h2]

/-! ## Claims -/

/-- C1: for every local file path contained within the remote root,
`compute_remote_path` returns exactly the path relative to the remote root,
in forward-slash (posix) form, prefixed with `"/"`. -/
theorem claim_C1 (p dropbox_root : List String) (h : dropbox_root <+: p) :
    compute_remote_path p dropbox_root =
      .ok ("/" ++ asPosix (p.drop dropbox_root.length)) :=
  compute_remote_path_of_prefix h

theorem claim_C1_witness :
    (["home", "u", "Dropbox"] : List String) <+:
        ["home", "u", "Dropbox", "notes", "a.paper"] ∧
    compute_remote_path ["home", "u", "Dropbox", "notes", "a.paper"]
        ["home", "u", "Dropbox"] =
      .ok ("/" ++ asPosix
        ((["home", "u", "Dropbox", "notes", "a.paper"] : List String).drop
          (["home", "u", "Dropbox"] : List String).length)) :=
  ⟨by decide,
    claim_C1 ["home", "u", "Dropbox", "notes", "a.paper"] ["home", "u", "Dropbox"]
      (by decide)⟩

/-- C2: a local file path not contained within the remote root fails to
resolve with a `PathError` (the `RuntimeError` of `compute_remote_path`);
the batch loop catches it, prints the `Skipping` message, skips the file,
continues with the remaining files, and still exits 0 when the rest of the
batch does. -/
theorem claim_C2 (client : Client) (fmt extension : String)
    (dropbox_root output_dir paper_dir p : List String)
    (rest : List (List String)) (h : ¬ dropbox_root <+: p) :
    compute_remote_path p dropbox_root =
      .error (showPath p ++ " is not inside the Dropbox root " ++
        showPath dropbox_root) ∧
    mainLoop client fmt extension dropbox_root output_dir paper_dir (p :: rest) =
      ((mainLoop client fmt extension dropbox_root output_dir paper_dir rest).1,
        .print ("Processing " ++ showPath p) ::
        .print ("  Skipping: " ++ (showPath p ++
          " is not inside the Dropbox root " ++ showPath dropbox_root)) ::
        (mainLoop client fmt extension dropbox_root output_dir paper_dir rest).2) ∧
    ((mainLoop client fmt extension dropbox_root output_dir paper_dir rest).1 =
        .exitOk →
      (mainLoop client fmt extension dropbox_root output_dir paper_dir
        (p :: rest)).1 = .exitOk) := by
  have he := compute_remote_path_of_not_prefix h
  have hm := mainLoop_cons_patherr client fmt extension dropbox_root output_dir
    paper_dir p rest _ he
  exact ⟨he, hm, fun hok => by rw [hm]; exact hok⟩

theorem claim_C2_witness :
    compute_remote_path ["tmp", "doc.paper"] ["home", "u", "Dropbox"] =
      .error (showPath ["tmp", "doc.paper"] ++
        " is not inside the Dropbox root " ++ showPath ["home", "u", "Dropbox"]) ∧
    mainLoop (fun _ _ => .apiErr "e") "markdown" ".md" ["home", "u", "Dropbox"]
        ["out"] ["tmp"] [["tmp", "doc.paper"]] =
      ((mainLoop (fun _ _ => .apiErr "e") "markdown" ".md" ["home", "u", "Dropbox"]
          ["out"] ["tmp"] []).1,
        .print ("Processing " ++ showPath ["tmp", "doc.paper"]) ::
        .print ("  Skipping: " ++ (showPath ["tmp", "doc.paper"] ++
          " is not inside the Dropbox root " ++ showPath ["home", "u", "Dropbox"])) ::
        (mainLoop (fun _ _ => .apiErr "e") "markdown" ".md" ["home", "u", "Dropbox"]
          ["out"] ["tmp"] []).2) ∧
    ((mainLoop (fun _ _ => .apiErr "e") "markdown" ".md" ["home", "u", "Dropbox"]
        ["out"] ["tmp"] []).1 = .exitOk →
      (mainLoop (fun _ _ => .apiErr "e") "markdown" ".md" ["home", "u", "Dropbox"]
        ["out"] ["tmp"] [["tmp", "doc.paper"]]).1 = .exitOk) :=
  claim_C2 (fun _ _ => .apiErr "e") "markdown" ".md" ["home", "u", "Dropbox"]
    ["out"] ["tmp"] ["tmp", "doc.paper"] [] (by decide)

/-- C4: a successful export returns exactly the heading line built from the
title reported by the metadata (or, when the `name` attribute is absent,
the last `/`-separated segment of the remote identifier) and the requested
format, then a blank line, then the decoded payload. -/
theorem claim_C4 (client : Client) (remote_path fmt : String)
    (nm : Option String) (bs : List Nat)
    (hfmt : fmt = "markdown" ∨ fmt = "html")
    (hc : client remote_path fmt = .ok nm bs) :
    export_paper client remote_path fmt =
      .ok ("# " ++ nm.getD (lastSegment remote_path) ++
        (" (exported as " ++ fmt ++ ")") ++ "\n\n" ++ pyDecodeUtf8 bs) := by
  have hne : fmt ≠ "" := by rcases hfmt with h | h <;> simp [h]
  simp [export_paper, hc, hne]

theorem claim_C4_witness :
    export_paper (fun _ _ => .ok (some "Title") [72, 105]) "/n/a.paper" "markdown" =
      .ok ("# " ++ (some "Title").getD (lastSegment "/n/a.paper") ++
        (" (exported as " ++ "markdown" ++ ")") ++ "\n\n" ++
        pyDecodeUtf8 [72, 105]) :=
  claim_C4 (fun _ _ => .ok (some "Title") [72, 105]) "/n/a.paper" "markdown"
    (some "Title") [72, 105] (Or.inl rfl) rfl

theorem utf8DecodeGo_false_mem : ∀ (fuel : Nat) (bs : List Nat),
    (utf8DecodeGo fuel bs).2 = false → replChar ∈ (utf8DecodeGo fuel bs).1 := by
  intro fuel
  induction fuel with
  | zero => intro bs h; cases bs <;> simp [utf8DecodeGo] at h
  | succ n ih =>
    intro bs h
    cases bs with
    | nil => simp [utf8DecodeGo] at h
    | cons b rest =>
      simp only [utf8DecodeGo] at h ⊢
      cases hb : (utf8Step b rest).1 with
      | none => simp [hb]
      | some c =>
        rw [hb] at h
        simp only [Option.isSome_some, Bool.true_and] at h
        exact List.mem_cons_of_mem _ (ih _ h)

/-- C5: the export never fails because of decoding — when the remote call
returns bytes the operation produces a string — and whenever the payload is
not valid UTF-8, the decoded text contains the replacement character
U+FFFD. -/
theorem claim_C5 (client : Client) (remote_path fmt : String)
    (nm : Option String) (bs : List Nat)
    (hc : client remote_path fmt = .ok nm bs) :
    (∃ t, export_paper client remote_path fmt = .ok t) ∧
    (utf8DecodeStrict bs = none → replChar ∈ (pyDecodeUtf8 bs).data) := by
  constructor
  · exact ⟨_, by unfold export_paper; rw [hc]⟩
  · intro hs
    have hflag : (utf8DecodeR bs).2 = false := by
      cases hf : (utf8DecodeR bs).2 with
      | false => rfl
      | true => simp [utf8DecodeStrict, hf] at hs
    have hmem := utf8DecodeGo_false_mem bs.length bs hflag
    simpa [pyDecodeUtf8, hs, utf8DecodeReplace, utf8DecodeR] using hmem

theorem claim_C5_witness :
    (∃ t, export_paper (fun _ _ => .ok none [0xFF, 0x41]) "/d.paper" "markdown" =
      .ok t) ∧
    replChar ∈ (pyDecodeUtf8 [0xFF, 0x41]).data :=
  ⟨(claim_C5 (fun _ _ => .ok none [0xFF, 0x41]) "/d.paper" "markdown" none
      [0xFF, 0x41] rfl).1,
    (claim_C5 (fun _ _ => .ok none [0xFF, 0x41]) "/d.paper" "markdown" none
      [0xFF, 0x41] rfl).2 (by decide)⟩

/-- C6: a successfully exported file is written to the path that re-roots
its location relative to the Local Root under the Output Root with the
extension swapped according to the selected format (`.md` for `markdown`,
`.html` for `html`), after creating the parent directory (with
`parents=True`). -/
theorem claim_C6 (client : Client) (fmt : String)
    (dropbox_root output_dir paper_dir p : List String)
    (rest : List (List String)) (rp content : String)
    (h1 : compute_remote_path p dropbox_root = .ok rp)
    (h2 : export_paper client rp fmt = .ok content) :
    mainLoop client fmt (extensionFor fmt) dropbox_root output_dir paper_dir
        (p :: rest) =
      ((mainLoop client fmt (extensionFor fmt) dropbox_root output_dir paper_dir
          rest).1,
        .print ("Processing " ++ showPath p) ::
        .mkdir (targetOf output_dir paper_dir (extensionFor fmt) p).dropLast ::
        .write (targetOf output_dir paper_dir (extensionFor fmt) p) content ::
        (mainLoop client fmt (extensionFor fmt) dropbox_root output_dir paper_dir
          rest).2) ∧
    targetOf output_dir paper_dir (extensionFor fmt) p =
      output_dir ++
        pyWithSuffix ((pyRelativeTo p paper_dir).getD []) (extensionFor fmt) ∧
    extensionFor "markdown" = ".md" ∧ extensionFor "html" = ".html" :=
  ⟨mainLoop_cons_ok client fmt (extensionFor fmt) dropbox_root output_dir
      paper_dir p rest rp content h1 h2, rfl, by decide, by decide⟩

theorem claim_C6_witness :
    mainLoop (fun _ _ => .ok (some "T") [72]) "markdown" (extensionFor "markdown")
        ["h", "d"] ["out"] ["h", "d", "notes"] [["h", "d", "notes", "a.paper"]] =
      ((mainLoop (fun _ _ => .ok (some "T") [72]) "markdown"
          (extensionFor "markdown") ["h", "d"] ["out"] ["h", "d", "notes"] []).1,
        .print ("Processing " ++ showPath ["h", "d", "notes", "a.paper"]) ::
        .mkdir (targetOf ["out"] ["h", "d", "notes"] (extensionFor "markdown")
          ["h", "d", "notes", "a.paper"]).dropLast ::
        .write (targetOf ["out"] ["h", "d", "notes"] (extensionFor "markdown")
          ["h", "d", "notes", "a.paper"]) "# T (exported as markdown)\n\nH" ::
        (mainLoop (fun _ _ => .ok (some "T") [72]) "markdown"
          (extensionFor "markdown") ["h", "d"] ["out"] ["h", "d", "notes"] []).2) ∧
    targetOf ["out"] ["h", "d", "notes"] (extensionFor "markdown")
        ["h", "d", "notes", "a.paper"] =
      ["out"] ++ pyWithSuffix ((pyRelativeTo ["h", "d", "notes", "a.paper"]
        ["h", "d", "notes"]).getD []) (extensionFor "markdown") ∧
    extensionFor "markdown" = ".md" ∧ extensionFor "html" = ".html" :=
  claim_C6 (fun _ _ => .ok (some "T") [72]) "markdown" ["h", "d"] ["out"]
    ["h", "d", "notes"] ["h", "d", "notes", "a.paper"] [] "/notes/a.paper"
    "# T (exported as markdown)\n\nH" rfl rfl

theorem processedOf_mkdir (p : List String) (t : List Event) :
    processedOf (.mkdir p :: t) = processedOf t := rfl

theorem processedOf_write (p : List String) (c : String) (t : List Event) :
    processedOf (.write p c :: t) = processedOf t := rfl

theorem export_paper_ok_of_client (client : Client) (rp fmt : String)
    (nm : Option String) (bs : List Nat) (h : client rp fmt = .ok nm bs) :
    ∃ content, export_paper client rp fmt = .ok content :=
  ⟨_, by unfold export_paper; rw [h]⟩

theorem export_paper_auth_of_client (client : Client) (rp fmt m : String)
    (h : client rp fmt = .authErr m) : export_paper client rp fmt = .auth m := by
  unfold export_paper; rw [h]

/-- C3: when the remote call reports an authentication failure on one file
of the batch (every earlier file exporting successfully), the run ends in
`SystemExit` (non-zero): every earlier file has its output written in the
trace, every write in the trace belongs to an earlier file (so nothing is
written for the failing file), and the files attempted are exactly the
earlier ones followed by the failing one — the later files are never
attempted. -/
theorem claim_C3 (client : Client) (fmt extension : String)
    (dropbox_root output_dir paper_dir : List String)
    (before after : List (List String)) (p : List String) (rp m : String)
    (hok : ∀ q ∈ before, ∃ rq nm bs,
      compute_remote_path q dropbox_root = .ok rq ∧ client rq fmt = .ok nm bs)
    (hp : compute_remote_path p dropbox_root = .ok rp)
    (hauth : client rp fmt = .authErr m) :
    (mainLoop client fmt extension dropbox_root output_dir paper_dir
        (before ++ p :: after)).1 =
      .exitErr ("Dropbox authentication failed: " ++ m) ∧
    (∀ q ∈ before, ∃ c, Event.write (targetOf output_dir paper_dir extension q) c ∈
      (mainLoop client fmt extension dropbox_root output_dir paper_dir
        (before ++ p :: after)).2) ∧
    (∀ pth c, Event.write pth c ∈
        (mainLoop client fmt extension dropbox_root output_dir paper_dir
          (before ++ p :: after)).2 →
      ∃ q ∈ before, pth = targetOf output_dir paper_dir extension q) ∧
    processedOf (mainLoop client fmt extension dropbox_root output_dir paper_dir
        (before ++ p :: after)).2 =
      (before ++ [p]).map (fun q => "Processing " ++ showPath q) := by
  induction before with
  | nil =>
    have hstep := mainLoop_cons_auth client fmt extension dropbox_root output_dir
      paper_dir p after rp m hp (export_paper_auth_of_client client rp fmt m hauth)
    rw [List.nil_append, hstep]
    refine ⟨rfl, ?_, ?_, ?_⟩
    · intro q hq; cases hq
    · intro pth c hc; simp at hc
    · rw [show ([Event.print ("Processing " ++ showPath p)]) =
        Event.print ("Processing " ++ showPath p) :: [] from rfl,
        processedOf_processing]
      rfl
  | cons q before ih =>
    obtain ⟨rq, nm, bs, hq1, hq2⟩ := hok q (List.mem_cons_self q before)
    obtain ⟨content, hq3⟩ := export_paper_ok_of_client client rq fmt nm bs hq2
    have hok2 : ∀ x ∈ before, ∃ rx nm bs,
        compute_remote_path x dropbox_root = .ok rx ∧ client rx fmt = .ok nm bs :=
      fun x hx => hok x (List.mem_cons_of_mem q hx)
    obtain ⟨iha, ihb, ihc, ihd⟩ := ih hok2
    have hstep := mainLoop_cons_ok client fmt extension dropbox_root output_dir
      paper_dir q (before ++ p :: after) rq content hq1 hq3
    rw [List.cons_append, hstep]
    refine ⟨iha, ?_, ?_, ?_⟩
    · intro x hx
      rcases List.mem_cons.mp hx with hx | hx
      · subst hx
        exact ⟨content, by simp⟩
      · obtain ⟨c, hc⟩ := ihb x hx
        exact ⟨c, by simp [List.mem_cons]; tauto⟩
    · intro pth c hc
      simp only [List.mem_cons] at hc
      rcases hc with hc | hc | hc | hc
      · cases hc
      · cases hc
      · obtain ⟨h1, h2⟩ := Event.write.inj hc
        exact ⟨q, List.mem_cons_self q before, h1⟩
      · obtain ⟨x, hx1, hx2⟩ := ihc pth c hc
        exact ⟨x, List.mem_cons_of_mem q hx1, hx2⟩
    · rw [processedOf_processing, processedOf_mkdir, processedOf_write, ihd]
      simp

theorem claim_C3_witness :
    (mainLoop (fun rp _ => if rp = "/a.paper" then .ok (some "A") [65]
        else .authErr "expired") "markdown" ".md" ["r"] ["o"] ["r"]
        ([["r", "a.paper"]] ++ ["r", "b.paper"] :: [["r", "c.paper"]])).1 =
      .exitErr ("Dropbox authentication failed: " ++ "expired") ∧
    (∀ q ∈ [["r", "a.paper"]], ∃ c, Event.write (targetOf ["o"] ["r"] ".md" q) c ∈
      (mainLoop (fun rp _ => if rp = "/a.paper" then .ok (some "A") [65]
        else .authErr "expired") "markdown" ".md" ["r"] ["o"] ["r"]
        ([["r", "a.paper"]] ++ ["r", "b.paper"] :: [["r", "c.paper"]])).2) ∧
    (∀ pth c, Event.write pth c ∈
        (mainLoop (fun rp _ => if rp = "/a.paper" then .ok (some "A") [65]
          else .authErr "expired") "markdown" ".md" ["r"] ["o"] ["r"]
          ([["r", "a.paper"]] ++ ["r", "b.paper"] :: [["r", "c.paper"]])).2 →
      ∃ q ∈ [["r", "a.paper"]], pth = targetOf ["o"] ["r"] ".md" q) ∧
    processedOf (mainLoop (fun rp _ => if rp = "/a.paper" then .ok (some "A") [65]
        else .authErr "expired") "markdown" ".md" ["r"] ["o"] ["r"]
        ([["r", "a.paper"]] ++ ["r", "b.paper"] :: [["r", "c.paper"]])).2 =
      ([["r", "a.paper"]] ++ [["r", "b.paper"]]).map
        (fun q => "Processing " ++ showPath q) :=
  claim_C3 (fun rp _ => if rp = "/a.paper" then .ok (some "A") [65]
      else .authErr "expired") "markdown" ".md" ["r"] ["o"] ["r"]
    [["r", "a.paper"]] [["r", "c.paper"]] ["r", "b.paper"] "/b.paper" "expired"
    (by intro q hq
        simp only [List.mem_singleton] at hq
        subst hq
        exact ⟨"/a.paper", some "A", [65], rfl, rfl⟩)
    rfl rfl

theorem char_eq_of_toNat {a b : Char} (h : a.toNat = b.toNat) : a = b :=
  Char.ext (UInt32.ext h)

theorem charListLt_trans : ∀ as bs cs : List Char,
    charListLt as bs = true → charListLt bs cs = true →
    charListLt as cs = true := by
  intro as
  induction as with
  | nil =>
    intro bs cs h1 h2
    cases bs with
    | nil => simp [charListLt] at h1
    | cons b bs =>
      cases cs with
      | nil => simp [charListLt] at h2
      | cons c cs => simp [charListLt]
  | cons a as ih =>
    intro bs cs h1 h2
    cases bs with
    | nil => simp [charListLt] at h1
    | cons b bs =>
      cases cs with
      | nil => simp [charListLt] at h2
      | cons c cs =>
        simp only [charListLt] at h1 h2 ⊢
        split_ifs at h1 h2 ⊢ <;>
          first
            | rfl
            | (exact ih bs cs h1 h2)
            | omega

theorem charListLt_irrefl : ∀ as : List Char, charListLt as as = false := by
  intro as
  induction as with
  | nil => rfl
  | cons a as ih => simp [charListLt, ih]

theorem charListLt_or : ∀ as bs : List Char,
    as = bs ∨ charListLt as bs = true ∨ charListLt bs as = true := by
  intro as
  induction as with
  | nil =>
    intro bs
    cases bs with
    | nil => exact Or.inl rfl
    | cons b bs => exact Or.inr (Or.inl (by simp [charListLt]))
  | cons a as ih =>
    intro bs
    cases bs with
    | nil => exact Or.inr (Or.inr (by simp [charListLt]))
    | cons b bs =>
      rcases Nat.lt_trichotomy a.toNat b.toNat with h | h | h
      · exact Or.inr (Or.inl (by simp [charListLt, h]))
      · have hab : a = b := char_eq_of_toNat h
        subst hab
        rcases ih bs with h2 | h2 | h2
        · exact Or.inl (by rw [h2])
        · exact Or.inr (Or.inl (by simp [charListLt, h2]))
        · exact Or.inr (Or.inr (by simp [charListLt, h2]))
      · exact Or.inr (Or.inr (by simp [charListLt, h, Nat.lt_asymm h]))

theorem strLt_trans {a b c : String} (h1 : strLt a b = true)
    (h2 : strLt b c = true) : strLt a c = true :=
  charListLt_trans a.data b.data c.data h1 h2

theorem strLt_irrefl (a : String) : strLt a a = false :=
  charListLt_irrefl a.data

theorem strLt_or (a b : String) :
    a = b ∨ strLt a b = true ∨ strLt b a = true := by
  rcases charListLt_or a.data b.data with h | h | h
  · exact Or.inl (String.ext h)
  · exact Or.inr (Or.inl h)
  · exact Or.inr (Or.inr h)

theorem pathLe_trans : ∀ x y z : List String,
    pathLe x y = true → pathLe y z = true → pathLe x z = true := by
  intro x
  induction x with
  | nil => intro y z h1 h2; rfl
  | cons a as ih =>
    intro y z h1 h2
    cases y with
    | nil => simp [pathLe] at h1
    | cons b bs =>
      cases z with
      | nil => simp [pathLe] at h2
      | cons c cs =>
        simp only [pathLe] at h1 h2 ⊢
        by_cases hab : strLt a b = true
        · by_cases hbc : strLt b c = true
          · simp [strLt_trans hab hbc]
          · by_cases hbceq : b = c
            · subst hbceq; simp [hab]
            · simp [hbc, hbceq] at h2
        · by_cases habeq : a = b
          · subst habeq
            rw [if_neg (by simp [hab]), if_pos rfl] at h1
            by_cases hbc : strLt a c = true
            · simp [hbc]
            · by_cases hbceq : a = c
              · subst hbceq
                rw [if_neg (by simp [hab]), if_pos rfl] at h2 ⊢
                exact ih bs cs h1 h2
              · simp [hbc, hbceq] at h2
          · simp [hab, habeq] at h1

theorem pathLe_total : ∀ x y : List String,
    (pathLe x y || pathLe y x) = true := by
  intro x
  induction x with
  | nil => intro y; rfl
  | cons a as ih =>
    intro y
    cases y with
    | nil => rfl
    | cons b bs =>
      rcases strLt_or a b with h | h | h
      · subst h
        simpa [pathLe, strLt_irrefl] using ih bs
      · simp [pathLe, h]
      · simp [pathLe, h]

/-- For every list of discovered files, the `Processing` messages of the
loop's trace are the discovered files in discovery order (a prefix of them,
all of them when the loop finishes without an abort). -/
theorem mainLoop_processed (client : Client) (fmt extension : String)
    (dropbox_root output_dir paper_dir : List String) :
    ∀ files : List (List String),
    processedOf (mainLoop client fmt extension dropbox_root output_dir paper_dir
        files).2 <+:
      files.map (fun p => "Processing " ++ showPath p) ∧
    ((mainLoop client fmt extension dropbox_root output_dir paper_dir files).1 =
        .exitOk →
      processedOf (mainLoop client fmt extension dropbox_root output_dir
          paper_dir files).2 =
        files.map (fun p => "Processing " ++ showPath p)) := by
  intro files
  induction files with
  | nil => exact ⟨List.nil_prefix, fun _ => rfl⟩
  | cons p rest ih =>
    cases hc : compute_remote_path p dropbox_root with
    | error msg =>
      rw [mainLoop_cons_patherr client fmt extension dropbox_root output_dir
        paper_dir p rest msg hc]
      rw [List.map_cons]
      constructor
      · rw [processedOf_processing, processedOf_skipping]
        exact List.cons_prefix_cons.mpr ⟨rfl, ih.1⟩
      · intro h
        rw [processedOf_processing, processedOf_skipping, ih.2 h]
    | ok rp =>
      cases he : export_paper client rp fmt with
      | auth m =>
        rw [mainLoop_cons_auth client fmt extension dropbox_root output_dir
          paper_dir p rest rp m hc he]
        rw [List.map_cons]
        constructor
        · rw [show ([Event.print ("Processing " ++ showPath p)]) =
            Event.print ("Processing " ++ showPath p) :: [] from rfl,
            processedOf_processing]
          exact List.cons_prefix_cons.mpr ⟨rfl, List.nil_prefix⟩
        · intro h; cases h
      | err m =>
        rw [mainLoop_cons_apierr client fmt extension dropbox_root output_dir
          paper_dir p rest rp m hc he]
        rw [List.map_cons]
        constructor
        · rw [processedOf_processing, processedOf_skipping]
          exact List.cons_prefix_cons.mpr ⟨rfl, ih.1⟩
        · intro h
          rw [processedOf_processing, processedOf_skipping, ih.2 h]
      | ok content =>
        rw [mainLoop_cons_ok client fmt extension dropbox_root output_dir
          paper_dir p rest rp content hc he]
        rw [List.map_cons]
        constructor
        · rw [processedOf_processing, processedOf_mkdir, processedOf_write]
          exact List.cons_prefix_cons.mpr ⟨rfl, ih.1⟩
        · intro h
          rw [processedOf_processing, processedOf_mkdir, processedOf_write,
            ih.2 h]

/-- C7: discovery returns the matching files under the Local Root sorted
lexicographically (by parts, Python's `Path` order) — a sorted permutation
of exactly the matching files — and the batch loop attempts files in
exactly that order (all of them when the run completes without abort), so
the output ordering is deterministic for a fixed input tree. -/
theorem claim_C7 (paper_dir : List String) (fs : List (List String))
    (client : Client) (fmt extension : String)
    (dropbox_root output_dir : List String) :
    (iter_paper_files paper_dir fs).Pairwise (fun a b => pathLe a b = true) ∧
    (iter_paper_files paper_dir fs).Perm (fs.filter (matchesPaper paper_dir)) ∧
    processedOf (mainLoop client fmt extension dropbox_root output_dir paper_dir
        (iter_paper_files paper_dir fs)).2 <+:
      (iter_paper_files paper_dir fs).map (fun p => "Processing " ++ showPath p) ∧
    ((mainLoop client fmt extension dropbox_root output_dir paper_dir
        (iter_paper_files paper_dir fs)).1 = .exitOk →
      processedOf (mainLoop client fmt extension dropbox_root output_dir
          paper_dir (iter_paper_files paper_dir fs)).2 =
        (iter_paper_files paper_dir fs).map
          (fun p => "Processing " ++ showPath p)) := by
  refine ⟨?_, ?_, ?_, ?_⟩
  · exact List.sorted_mergeSort pathLe_trans pathLe_total
      (fs.filter (matchesPaper paper_dir))
  · exact List.mergeSort_perm (fs.filter (matchesPaper paper_dir)) pathLe
  · exact (mainLoop_processed client fmt extension dropbox_root output_dir
      paper_dir (iter_paper_files paper_dir fs)).1
  · exact (mainLoop_processed client fmt extension dropbox_root output_dir
      paper_dir (iter_paper_files paper_dir fs)).2

unseal List.merge List.mergeSort in
theorem claim_C7_witness :
    processedOf (mainLoop (fun _ _ => .ok (some "T") [72]) "markdown" ".md"
        ["s"] ["o"] ["s"]
        (iter_paper_files ["s"] [["s", "b.paper"], ["s", "a.paper"]])).2 =
      (iter_paper_files ["s"] [["s", "b.paper"], ["s", "a.paper"]]).map
        (fun p => "Processing " ++ showPath p) :=
  (claim_C7 ["s"] [["s", "b.paper"], ["s", "a.paper"]]
    (fun _ _ => .ok (some "T") [72]) "markdown" ".md" ["s"] ["o"]).2.2.2
    (by decide)

theorem charSplit_noSlash : ∀ l : List Char, '/' ∉ l → charSplit l = [l] := by
  intro l
  induction l with
  | nil => intro h; rfl
  | cons c cs ih =>
    intro h
    have hc : ¬ c = '/' := fun e => h (e ▸ List.mem_cons_self c cs)
    have hcs : '/' ∉ cs := fun m => h (List.mem_cons_of_mem c m)
    simp [charSplit, hc, ih hcs]

theorem charSplit_append : ∀ (l rest : List Char), '/' ∉ l →
    charSplit (l ++ '/' :: rest) = l :: charSplit rest := by
  intro l
  induction l with
  | nil => intro rest h; simp [charSplit]
  | cons c cs ih =>
    intro rest h
    have hc : ¬ c = '/' := fun e => h (e ▸ List.mem_cons_self c cs)
    have hcs : '/' ∉ cs := fun m => h (List.mem_cons_of_mem c m)
    simp [charSplit, hc, ih rest hcs]

theorem charSplit_joinSlash : ∀ parts : List String, parts ≠ [] →
    (∀ s ∈ parts, '/' ∉ s.data) →
    charSplit (joinSlash parts).data = parts.map String.data := by
  intro parts
  induction parts with
  | nil => intro h; exact absurd rfl h
  | cons a rest ih =>
    intro _ hns
    cases rest with
    | nil =>
      simpa [joinSlash] using
        charSplit_noSlash a.data (hns a (List.mem_cons_self a []))
    | cons b rest2 =>
      have hdata : (a ++ "/" ++ joinSlash (b :: rest2)).data =
          a.data ++ '/' :: (joinSlash (b :: rest2)).data := by
        simp
      have hrec := ih (List.cons_ne_nil b rest2)
        (fun s hs => hns s (List.mem_cons_of_mem a hs))
      simp only [joinSlash, hdata,
        charSplit_append a.data _ (hns a (List.mem_cons_self a (b :: rest2))),
        hrec, List.map_cons]

theorem stripLead_slash_append (s : String) : stripLead ("/" ++ s) = s := rfl

theorem splitSlash_joinSlash (parts : List String) (h1 : parts ≠ [])
    (h2 : ∀ s ∈ parts, '/' ∉ s.data) :
    splitSlash (joinSlash parts) = parts := by
  unfold splitSlash
  rw [charSplit_joinSlash parts h1 h2, List.map_map]
  simp [Function.comp_def, mk_data_eq]

/-- C8: for a local path strictly under the remote root (with
separator-free components, as real path components are), resolving it to
its remote identifier, stripping the leading `"/"` and splitting on the
posix separator again yields exactly the path relative to the remote root:
the Path Resolver round-trips. -/
theorem claim_C8 (p dropbox_root : List String) (rp : String)
    (hpre : dropbox_root <+: p) (hlt : dropbox_root.length < p.length)
    (hsep : ∀ c ∈ p, '/' ∉ c.data)
    (hrp : compute_remote_path p dropbox_root = .ok rp) :
    splitSlash (stripLead rp) = p.drop dropbox_root.length := by
  have hval := compute_remote_path_of_prefix hpre
  rw [hrp] at hval
  have hrpe : rp = "/" ++ asPosix (p.drop dropbox_root.length) :=
    Except.ok.inj hval
  have hne : p.drop dropbox_root.length ≠ [] := by
    intro h0
    have hlen := congrArg List.length h0
    simp [List.length_drop] at hlen
    omega
  rw [hrpe, stripLead_slash_append, asPosix, if_neg hne]
  exact splitSlash_joinSlash _ hne
    (fun s hs => hsep s (List.drop_subset _ _ hs))

theorem claim_C8_witness :
    splitSlash (stripLead "/notes/a.paper") =
      (["home", "u", "Dropbox", "notes", "a.paper"] : List String).drop
        (["home", "u", "Dropbox"] : List String).length :=
  claim_C8 ["home", "u", "Dropbox", "notes", "a.paper"] ["home", "u", "Dropbox"]
    "/notes/a.paper" (by decide) (by decide) (by decide) rfl

theorem targetOf_dropLast (output_dir paper_dir : List String) (ext : String)
    (p : List String) :
    (targetOf output_dir paper_dir ext p).dropLast =
      output_dir ++ ((pyRelativeTo p paper_dir).getD []).dropLast := by
  simp [targetOf, pyWithSuffix]

theorem mainLoop_touched (client : Client) (fmt extension : String)
    (dropbox_root output_dir paper_dir : List String) :
    ∀ files : List (List String),
    ∀ e ∈ (mainLoop client fmt extension dropbox_root output_dir paper_dir
      files).2, ∀ pth, touchedPath e = some pth → output_dir <+: pth := by
  intro files
  induction files with
  | nil => intro e he; simp [mainLoop] at he
  | cons p rest ih =>
    intro e he pth hp
    cases hc : compute_remote_path p dropbox_root with
    | error msg =>
      rw [mainLoop_cons_patherr client fmt extension dropbox_root output_dir
        paper_dir p rest msg hc] at he
      simp only [List.mem_cons] at he
      rcases he with he | he | he
      · subst he; cases hp
      · subst he; cases hp
      · exact ih e he pth hp
    | ok rp =>
      cases hex : export_paper client rp fmt with
      | auth m =>
        rw [mainLoop_cons_auth client fmt extension dropbox_root output_dir
          paper_dir p rest rp m hc hex] at he
        simp only [List.mem_cons, List.not_mem_nil, or_false] at he
        subst he; cases hp
      | err m =>
        rw [mainLoop_cons_apierr client fmt extension dropbox_root output_dir
          paper_dir p rest rp m hc hex] at he
        simp only [List.mem_cons] at he
        rcases he with he | he | he
        · subst he; cases hp
        · subst he; cases hp
        · exact ih e he pth hp
      | ok content =>
        rw [mainLoop_cons_ok client fmt extension dropbox_root output_dir
          paper_dir p rest rp content hc hex] at he
        simp only [List.mem_cons] at he
        rcases he with he | he | he | he
        · subst he; cases hp
        · subst he
          have hpth : pth = (targetOf output_dir paper_dir extension p).dropLast :=
            (Option.some.inj hp).symm
          rw [hpth, targetOf_dropLast]
          exact List.prefix_append output_dir _
        · subst he
          have hpth : pth = targetOf output_dir paper_dir extension p :=
            (Option.some.inj hp).symm
          rw [hpth, targetOf]
          exact List.prefix_append output_dir _
        · exact ih e he pth hp

/-- C10, amended: every path the program creates or writes (the output
directory itself, parents of targets, and targets) lies under the output
directory; consequently, when neither of the source and output directories
lies under the other, no run creates or modifies anything under the source
directory.  (As stated, the claim fails when the output directory is nested
inside the source directory — see the counterexample.) -/
theorem claim_C10 (paperIsDir : Bool)
    (paper_dir output_dir dropbox_root : List String)
    (tokenFlag envToken : Option String) (fmt : String)
    (fs : List (List String)) (client : Client) :
    (∀ e ∈ (mainRun paperIsDir paper_dir output_dir dropbox_root tokenFlag
        envToken fmt fs client).2,
      ∀ pth, touchedPath e = some pth → output_dir <+: pth) ∧
    (¬ paper_dir <+: output_dir → ¬ output_dir <+: paper_dir →
      ∀ e ∈ (mainRun paperIsDir paper_dir output_dir dropbox_root tokenFlag
          envToken fmt fs client).2,
        ∀ pth, touchedPath e = some pth → ¬ paper_dir <+: pth) := by
  have hout : ∀ e ∈ (mainRun paperIsDir paper_dir output_dir dropbox_root
      tokenFlag envToken fmt fs client).2,
      ∀ pth, touchedPath e = some pth → output_dir <+: pth := by
    intro e he pth hp
    simp only [mainRun] at he
    split_ifs at he with h1 h2 h3
    · simp at he
    · simp only [List.mem_cons, List.not_mem_nil, or_false] at he
      rcases he with he | he
      · subst he
        have h4 : output_dir = pth := Option.some.inj hp
        subst h4
        exact List.prefix_refl output_dir
      · subst he
        cases hp
    · simp only [List.mem_cons] at he
      rcases he with he | he
      · subst he
        have h4 : output_dir = pth := Option.some.inj hp
        subst h4
        exact List.prefix_refl output_dir
      · exact mainLoop_touched client fmt (extensionFor fmt) dropbox_root
          output_dir paper_dir (iter_paper_files paper_dir fs) e he pth hp
    · simp at he
  refine ⟨hout, ?_⟩
  intro hno1 hno2 e he pth hp hcontra
  rcases List.prefix_or_prefix_of_prefix hcontra (hout e he pth hp) with h | h
  · exact hno1 h
  · exact hno2 h

theorem claim_C10_witness :
    ∀ e ∈ (mainRun true ["r", "src"] ["out"] ["r"] (some "tok") none "markdown"
        [["r", "src", "a.paper"]] (fun _ _ => .ok (some "T") [72])).2,
      ∀ pth, touchedPath e = some pth → ¬ (["r", "src"] : List String) <+: pth :=
  (claim_C10 true ["r", "src"] ["out"] ["r"] (some "tok") none "markdown"
      [["r", "src", "a.paper"]] (fun _ _ => .ok (some "T") [72])).2
    (by decide) (by decide)

/- C10, counterexample to the claim as stated: with the output directory
nested inside the source directory (`--output-dir` under `--paper-dir`), a
successful run writes a file under the source directory. -/
unseal List.merge List.mergeSort in
theorem claim_C10_counterexample :
    Event.write ["r", "src", "out", "a.md"] "# T (exported as markdown)\n\nH" ∈
      (mainRun true ["r", "src"] ["r", "src", "out"] ["r"] (some "tok") none
        "markdown" [["r", "src", "a.paper"]]
        (fun _ _ => .ok (some "T") [72])).2 ∧
    (["r", "src"] : List String) <+: ["r", "src", "out", "a.md"] := by
  constructor <;> decide

/-- C9: when the access token is absent from both the `--dropbox-token`
flag and the `DROPBOX_ACCESS_TOKEN` environment variable (both read as
falsy), the run aborts with `SystemExit` (non-zero exit) and its effect
trace is empty: nothing is created or written, in particular not the
output directory. -/
theorem claim_C9 (paperIsDir : Bool)
    (paper_dir output_dir dropbox_root : List String)
    (tokenFlag envToken : Option String) (fmt : String)
    (fs : List (List String)) (client : Client)
    (h : pyOr (tokenFlag.getD "") (envToken.getD "") = "") :
    (∃ m, (mainRun paperIsDir paper_dir output_dir dropbox_root tokenFlag
      envToken fmt fs client).1 = .exitErr m) ∧
    (mainRun paperIsDir paper_dir output_dir dropbox_root tokenFlag envToken
      fmt fs client).2 = [] := by
  cases paperIsDir with
  | false => exact ⟨⟨_, rfl⟩, rfl⟩
  | true => simp [mainRun, h]

theorem claim_C9_witness :
    pyOr ((none : Option String).getD "") ((none : Option String).getD "") = "" ∧
    ((∃ m, (mainRun true ["src"] ["out"] ["d"] none none "markdown"
        [["src", "a.paper"]] (fun _ _ => .ok none [])).1 = .exitErr m) ∧
      (mainRun true ["src"] ["out"] ["d"] none none "markdown"
        [["src", "a.paper"]] (fun _ _ => .ok none [])).2 = []) :=
  ⟨rfl, claim_C9 true ["src"] ["out"] ["d"] none none "markdown"
    [["src", "a.paper"]] (fun _ _ => .ok none []) rfl⟩
